import Mathlib

/-!
Verification development for the checkers board server core
(`game/consumers.py`): coordinate mapping, move inference from board
snapshots, board reconciliation, and the per-room session registry.

Python integers are modelled as `Int`; Python `//` is floor division,
modelled by `Int.fdiv`, and `%` is floor remainder, modelled by
`Int.emod` (they agree for the non-negative divisors used here).
-/

namespace CheckersWrapper

/-- Converts a grid position to checkersboard notation
(`CheckersWrapper.grid_to_checkers`).  `res = row*4 + 1`; on even rows the
column is first decremented; the half-column is added; for player 1 the
result is mirrored through `abs (pos - 33)`. -/
def grid_to_checkers (row col player : Int) : Int :=
  let res : Int := row * 4 + 1
  let col2 : Int := if Int.emod row 2 = 0 then col - 1 else col
  let pos : Int := res + Int.fdiv col2 2
  if player = 1 then |pos - 33| else pos

/-- Converts a checkersboard notation into grid position
(`CheckersWrapper.checkers_to_grid`).  For player 1 the notation is first
mirrored through `abs (num - 33)`; then `row = (num-1)//4`,
`col = (num - (row*4+1)) * 2`, incremented on even rows. -/
def checkers_to_grid (num player : Int) : Int × Int :=
  let num2 : Int := if player = 1 then |num - 33| else num
  let row : Int := Int.fdiv (num2 - 1) 4
  let col : Int := (num2 - (row * 4 + 1)) * 2
  let col2 : Int := if Int.emod row 2 = 0 then col + 1 else col
  (row, col2)

/-- Exhaustive check of the round trip on all 64 squares of the grid
(restricted by the oddness hypothesis to the 32 dark squares) for both
players. -/
lemma round_trip_aux :
    ∀ r : Nat, r < 8 → ∀ c : Nat, c < 8 → (r + c) % 2 = 1 →
      checkers_to_grid (grid_to_checkers (r : Int) (c : Int) 1) 1 = ((r : Int), (c : Int)) ∧
      checkers_to_grid (grid_to_checkers (r : Int) (c : Int) 2) 2 = ((r : Int), (c : Int)) := by
  decide

/-- C1: for every dark square `(row, col)` with `row, col ∈ [0,7]` and
`row + col` odd, and every player `p ∈ {1,2}`,
`checkers_to_grid (grid_to_checkers row col p) p = (row, col)`: the two
coordinate-mapping functions are exact inverses on playable squares. -/
theorem grid_checkers_round_trip (r c : Nat) (hr : r < 8) (hc : c < 8)
    (hodd : (r + c) % 2 = 1) (p : Int) (hp : p = 1 ∨ p = 2) :
    checkers_to_grid (grid_to_checkers (r : Int) (c : Int) p) p = ((r : Int), (c : Int)) := by
  rcases hp with hp | hp <;> subst hp
  · exact (round_trip_aux r hr c hc hodd).1
  · exact (round_trip_aux r hr c hc hodd).2

/-- Witness for C1 at the concrete dark square `(0, 1)` and player 1. -/
theorem grid_checkers_round_trip_witness :
    (0 : Nat) < 8 ∧ (1 : Nat) < 8 ∧ ((0 + 1) % 2 = 1) ∧
      checkers_to_grid (grid_to_checkers ((0 : Nat) : Int) ((1 : Nat) : Int) 1) 1 =
        (((0 : Nat) : Int), ((1 : Nat) : Int)) :=
  ⟨by decide, by decide, by decide,
    grid_checkers_round_trip 0 1 (by decide) (by decide) (by decide) 1 (Or.inl rfl)⟩

/-! ### Move inference from board snapshots -/

/-- Occupancy test `b[r][c]` on a snapshot; `false` out of range (every
access made by the source is in range). -/
def bAt (b : List (List Bool)) (r c : Nat) : Bool :=
  (b.getD r []).getD c false

/-- Row-major scan order of the nested loops in `boards_same`: rows
`0..nr-1`, and within each row columns `0..nc-1`. -/
def coordPairs (nr nc : Nat) : List (Nat × Nat) :=
  (List.range nr).flatMap fun r => (List.range nc).map fun c => (r, c)

/-- Inner helper `boards_same` of `make_move_from_board`: scans all squares
in row-major order; a square occupied in `prev` but not in `curr`
overwrites the start candidate, a square occupied in `curr` but not in
`prev` overwrites the end candidate (later squares win). -/
def boards_same (prev curr : List (List Bool)) :
    Option (Nat × Nat) × Option (Nat × Nat) :=
  (coordPairs prev.length (prev.headD []).length).foldl
    (fun acc rc =>
      if bAt prev rc.1 rc.2 && !bAt curr rc.1 rc.2 then (some rc, acc.2)
      else if !bAt prev rc.1 rc.2 && bAt curr rc.1 rc.2 then (acc.1, some rc)
      else acc)
    (none, none)

/-- Model of `make_move_from_board`.  The external rule engine's
`game.move` is abstracted by the `accept` oracle (`make_move` returns
`False` exactly when `game.move` raises).  The result records the returned
Bool, the final `error_location` list, and the move submitted to the
engine (`none` when the engine was not consulted; the source calls
`make_move` at most once per invocation). -/
def make_move_from_board (accept : Int → Int → Bool)
    (prev curr : List (List Bool)) (player : Int)
    (error_location : List (Nat × Nat)) :
    Bool × List (Nat × Nat) × Option (Int × Int) :=
  match boards_same prev curr with
  | (some s, some e) =>
    let mv : Int × Int :=
      (grid_to_checkers (s.1 : Int) (s.2 : Int) player,
       grid_to_checkers (e.1 : Int) (e.2 : Int) player)
    if accept mv.1 mv.2 then (true, error_location, some mv)
    else (false, error_location ++ [e], some mv)
  | _ => (false, error_location, none)

/-- Squares occupied in `prev` but no longer in `curr`, in scan order. -/
def vacatedSquares (prev curr : List (List Bool)) : List (Nat × Nat) :=
  (coordPairs prev.length (prev.headD []).length).filter
    fun rc => bAt prev rc.1 rc.2 && !bAt curr rc.1 rc.2

/-- Squares occupied in `curr` but not in `prev`, in scan order. -/
def newlyOccupied (prev curr : List (List Bool)) : List (Nat × Nat) :=
  (coordPairs prev.length (prev.headD []).length).filter
    fun rc => !bAt prev rc.1 rc.2 && bAt curr rc.1 rc.2

/-- Generic last-seen-wins fold: the first component records the last
element satisfying `P`, the second the last satisfying `Q`, provided `P`
and `Q` are mutually exclusive. -/
lemma foldl_last_update {α : Type*} (P Q : α → Bool)
    (hx : ∀ x, P x = true → Q x = false) :
    ∀ (l : List α) (acc : Option α × Option α),
      l.foldl (fun acc x =>
        if P x then (some x, acc.2)
        else if Q x then (acc.1, some x) else acc) acc
      = ((l.filter P).getLast?.or acc.1, (l.filter Q).getLast?.or acc.2) := by
  intro l
  induction l with
  | nil => intro acc; simp
  | cons x l ih =>
    intro acc
    rcases hP : P x with _ | _
    · rcases hQ : Q x with _ | _
      · simp [List.foldl_cons, hP, hQ, ih, List.filter_cons]
      · simp only [List.foldl_cons, hP, hQ, ih, List.filter_cons]
        simp only [hP, hQ, Bool.false_eq_true, ite_false, ite_true]
        rcases hL : (l.filter Q).getLast? with _ | y
        · rw [List.getLast?_eq_none_iff] at hL
          simp [List.getLast?_cons, hL]
        · have : (x :: l.filter Q).getLast? = some y := by
            rw [List.getLast?_cons, hL]; rfl
          simp [this, hL]
    · have hQ : Q x = false := hx x hP
      simp only [List.foldl_cons, hP, hQ, ih, List.filter_cons]
      simp only [hP, hQ, Bool.false_eq_true, ite_false, ite_true]
      rcases hL : (l.filter P).getLast? with _ | y
      · rw [List.getLast?_eq_none_iff] at hL
        simp [List.getLast?_cons, hL]
      · have : (x :: l.filter P).getLast? = some y := by
          rw [List.getLast?_cons, hL]; rfl
        simp [this, hL]

/-- Characterisation of `boards_same`: it returns exactly the last vacated
square and the last newly occupied square in row-major scan order. -/
lemma boards_same_eq (prev curr : List (List Bool)) :
    boards_same prev curr =
      ((vacatedSquares prev curr).getLast?, (newlyOccupied prev curr).getLast?) := by
  have h := foldl_last_update
    (fun rc : Nat × Nat => bAt prev rc.1 rc.2 && !bAt curr rc.1 rc.2)
    (fun rc : Nat × Nat => !bAt prev rc.1 rc.2 && bAt curr rc.1 rc.2)
    (by intro rc hp; rcases hb : bAt prev rc.1 rc.2 <;> simp_all)
    (coordPairs prev.length (prev.headD []).length) (none, none)
  simpa [boards_same, vacatedSquares, newlyOccupied, Option.or_none] using h

/-- The empty 8x8 snapshot (`[[False] * 8 for _ in range(8)]`). -/
def emptyBoard : List (List Bool) := List.replicate 8 (List.replicate 8 false)

/-- Example 8x8 snapshot with `true` exactly on the listed squares. -/
def boardOf (l : List (Nat × Nat)) : List (List Bool) :=
  (List.range 8).map fun r => (List.range 8).map fun c => l.contains (r, c)

/-- C3: whenever the snapshot diff yields a vacated start square and a
newly occupied end square and the rule engine rejects the mapped move,
`make_move_from_board` returns `False` and the error-location list
(starting empty, as in `receive`) holds exactly the end grid square. -/
theorem illegal_move_reports_end (accept : Int → Int → Bool)
    (prev curr : List (List Bool)) (player : Int) (s e : Nat × Nat)
    (hdiff : boards_same prev curr = (some s, some e))
    (hrej : accept (grid_to_checkers (s.1 : Int) (s.2 : Int) player)
        (grid_to_checkers (e.1 : Int) (e.2 : Int) player) = false) :
    make_move_from_board accept prev curr player [] =
      (false, [e],
        some (grid_to_checkers (s.1 : Int) (s.2 : Int) player,
          grid_to_checkers (e.1 : Int) (e.2 : Int) player)) := by
  simp only [make_move_from_board, hdiff, hrej]
  simp

/-- Witness for C3: a single piece moves from `(5,0)` to `(4,1)` and the
engine rejects every move. -/
theorem illegal_move_reports_end_witness :
    boards_same (boardOf [(5, 0)]) (boardOf [(4, 1)]) = (some (5, 0), some (4, 1)) ∧
    (fun _ _ : Int => false) (grid_to_checkers ((5 : Nat) : Int) ((0 : Nat) : Int) 2)
        (grid_to_checkers ((4 : Nat) : Int) ((1 : Nat) : Int) 2) = false ∧
    make_move_from_board (fun _ _ => false) (boardOf [(5, 0)]) (boardOf [(4, 1)]) 2 [] =
      (false, [(4, 1)],
        some (grid_to_checkers ((5 : Nat) : Int) ((0 : Nat) : Int) 2,
          grid_to_checkers ((4 : Nat) : Int) ((1 : Nat) : Int) 2)) :=
  ⟨by decide, rfl,
    illegal_move_reports_end (fun _ _ => false) (boardOf [(5, 0)]) (boardOf [(4, 1)])
      2 (5, 0) (4, 1) (by decide) rfl⟩

/-- C4: when the diff finds no vacated square or no newly occupied square
(identical snapshots included), `make_move_from_board` returns `False`,
leaves the error-location list unchanged, and never consults the rule
engine. -/
theorem missing_diff_no_submission (accept : Int → Int → Bool)
    (prev curr : List (List Bool)) (player : Int)
    (error_location : List (Nat × Nat))
    (h : (boards_same prev curr).1 = none ∨ (boards_same prev curr).2 = none) :
    make_move_from_board accept prev curr player error_location =
      (false, error_location, none) := by
  unfold make_move_from_board
  rcases hbs : boards_same prev curr with ⟨s, e⟩
  rw [hbs] at h
  rcases s with _ | s <;> rcases e with _ | e <;> simp_all

/-- Witness for C4: identical snapshots (one piece at `(0,1)` in both),
an engine that would accept anything, and an empty error list. -/
theorem missing_diff_no_submission_witness :
    ((boards_same (boardOf [(0, 1)]) (boardOf [(0, 1)])).1 = none ∨
      (boards_same (boardOf [(0, 1)]) (boardOf [(0, 1)])).2 = none) ∧
    make_move_from_board (fun _ _ => true) (boardOf [(0, 1)]) (boardOf [(0, 1)]) 1 [] =
      (false, [], none) :=
  ⟨Or.inl (by decide),
    missing_diff_no_submission (fun _ _ => true) (boardOf [(0, 1)]) (boardOf [(0, 1)])
      1 [] (Or.inl (by decide))⟩

/-- C5: with more than one vacated or more than one newly occupied square,
no distinct error is signalled: `boards_same` yields exactly the last-seen
vacated and last-seen newly occupied squares in row-major scan order, and
the move `make_move_from_board` submits to the engine is built from that
pair. -/
theorem multi_diff_uses_last_seen (prev curr : List (List Bool))
    (hmulti : 1 < (vacatedSquares prev curr).length ∨
      1 < (newlyOccupied prev curr).length) :
    boards_same prev curr =
      ((vacatedSquares prev curr).getLast?, (newlyOccupied prev curr).getLast?) ∧
    ∀ (accept : Int → Int → Bool) (player : Int) (s e : Nat × Nat),
      (vacatedSquares prev curr).getLast? = some s →
      (newlyOccupied prev curr).getLast? = some e →
      (make_move_from_board accept prev curr player []).2.2 =
        some (grid_to_checkers (s.1 : Int) (s.2 : Int) player,
          grid_to_checkers (e.1 : Int) (e.2 : Int) player) := by
  refine ⟨boards_same_eq prev curr, ?_⟩
  intro accept player s e hs he
  have hbs : boards_same prev curr = (some s, some e) := by
    rw [boards_same_eq, hs, he]
  simp only [make_move_from_board, hbs]
  rcases hacc : accept (grid_to_checkers (s.1 : Int) (s.2 : Int) player)
      (grid_to_checkers (e.1 : Int) (e.2 : Int) player) with _ | _ <;> simp [hacc]

/-- Witness for C5: two pieces vacate `(0,1)`, `(0,3)` and two squares
`(1,0)`, `(1,2)` become occupied between the snapshots. -/
theorem multi_diff_uses_last_seen_witness :
    (1 < (vacatedSquares (boardOf [(0, 1), (0, 3)]) (boardOf [(1, 0), (1, 2)])).length ∨
      1 < (newlyOccupied (boardOf [(0, 1), (0, 3)]) (boardOf [(1, 0), (1, 2)])).length) ∧
    (boards_same (boardOf [(0, 1), (0, 3)]) (boardOf [(1, 0), (1, 2)]) =
      ((vacatedSquares (boardOf [(0, 1), (0, 3)]) (boardOf [(1, 0), (1, 2)])).getLast?,
        (newlyOccupied (boardOf [(0, 1), (0, 3)]) (boardOf [(1, 0), (1, 2)])).getLast?) ∧
    ∀ (accept : Int → Int → Bool) (player : Int) (s e : Nat × Nat),
      (vacatedSquares (boardOf [(0, 1), (0, 3)]) (boardOf [(1, 0), (1, 2)])).getLast? = some s →
      (newlyOccupied (boardOf [(0, 1), (0, 3)]) (boardOf [(1, 0), (1, 2)])).getLast? = some e →
      (make_move_from_board accept (boardOf [(0, 1), (0, 3)]) (boardOf [(1, 0), (1, 2)])
          player []).2.2 =
        some (grid_to_checkers (s.1 : Int) (s.2 : Int) player,
          grid_to_checkers (e.1 : Int) (e.2 : Int) player)) :=
  ⟨Or.inl (by decide),
    multi_diff_uses_last_seen (boardOf [(0, 1), (0, 3)]) (boardOf [(1, 0), (1, 2)])
      (Or.inl (by decide))⟩

/-- Counterexample to C9: a party holding the unassigned sentinel `-1`
submits the diff `(5,0) to (4,1)`; the move is mapped exactly as for
player 2 (notation `21 to 17`), submitted to the engine, and applied when
the engine accepts it, so the unassigned party does mutate the game. -/
theorem unassigned_party_applies_move :
    make_move_from_board (fun _ _ => true) (boardOf [(5, 0)]) (boardOf [(4, 1)]) (-1) [] =
      (true, [], some (21, 17)) := by
  decide

/-- Amended C9: `make_move_from_board` performs no authorization on the
player slot.  With the unassigned sentinel `-1` it behaves exactly as with
player slot 2 (the mirroring test `player == 1` fails for both), so a move
inferred from an unassigned party's snapshots is submitted to the engine
and applied precisely when the engine accepts it. -/
theorem unassigned_behaves_like_player_two (accept : Int → Int → Bool)
    (prev curr : List (List Bool)) (error_location : List (Nat × Nat)) :
    make_move_from_board accept prev curr (-1) error_location =
      make_move_from_board accept prev curr 2 error_location := by
  have hg : ∀ r c : Int, grid_to_checkers r c (-1) = grid_to_checkers r c 2 := by
    intro r c
    simp [grid_to_checkers]
  unfold make_move_from_board
  rcases boards_same prev curr with ⟨s, e⟩
  rcases s with _ | s <;> rcases e with _ | e <;> simp [hg]

/-! ### Rule-engine piece data and board reconciliation -/

/-- Piece record of the external rule engine exactly as the source reads
it: an owning player, the engine's opponent tag `other_player`, a notation
position, and a captured flag. -/
structure Piece where
  player : Int
  other_player : Int
  position : Int
  captured : Bool
deriving DecidableEq

/-- Grid squares of `player`'s non-captured pieces in piece-list order:
the `seen` set built by the first loop of `validate_player_board`. -/
def playerSquares (pieces : List Piece) (player : Int) : List (Int × Int) :=
  (pieces.filter fun pc => pc.player == player && !pc.captured).map
    fun pc => checkers_to_grid pc.position player

/-- Occupancy test at `Int` grid coordinates; all coordinates produced by
`checkers_to_grid` on valid notation positions are in `[0,7]`. -/
def bAtI (b : List (List Bool)) (r c : Int) : Bool :=
  bAt b r.toNat c.toNat

/-- The fixed `range(8) x range(8)` scan of the second loop of
`validate_player_board`, as grid coordinates in row-major order. -/
def gridPairs : List (Int × Int) :=
  (List.range 8).flatMap fun r => (List.range 8).map fun c => ((r : Int), (c : Int))

/-- Model of `validate_player_board`: the first loop flags (in piece
order) the grid square of every non-captured piece of `player` that the
board shows empty, collecting every such square into `seen`; the second
loop then flags (in row-major order) every occupied board square not in
`seen`. -/
def validate_player_board (pieces : List Piece) (board : List (List Bool))
    (player : Int) : List (Int × Int) :=
  let seen := playerSquares pieces player
  (seen.filter fun rc => !bAtI board rc.1 rc.2) ++
    (gridPairs.filter fun rc => !(decide (rc ∈ seen)) && bAtI board rc.1 rc.2)

/-- Write `True` at `board[r][c]`; every index the source produces here is
in range. -/
def setB (b : List (List Bool)) (r c : Int) : List (List Bool) :=
  b.set r.toNat ((b.getD r.toNat []).set c.toNat true)

/-- Mark each listed square on an initially empty 8x8 board. -/
def markSquares (l : List (Int × Int)) : List (List Bool) :=
  l.foldl (fun b rc => setB b rc.1 rc.2) emptyBoard

/-- Grid squares (in `player`'s frame) of the non-captured pieces whose
`other_player` tag equals `player`: the pieces owned by `player`'s
opponent. -/
def opponentSquares (pieces : List Piece) (player : Int) : List (Int × Int) :=
  (pieces.filter fun pc => pc.other_player == player && !pc.captured).map
    fun pc => checkers_to_grid pc.position player

/-- Model of `add_opponent_pieces`: starting from the empty 8x8 board,
mark the square of every non-captured piece whose `other_player` tag is
`player`, mapped through `player`'s own mirroring. -/
def add_opponent_pieces (pieces : List Piece) (player : Int) :
    List (List Bool) :=
  markSquares (opponentSquares pieces player)

/-- Shape predicate: an 8x8 snapshot. -/
def isBoard8 (b : List (List Bool)) : Prop :=
  b.length = 8 ∧ ∀ row ∈ b, row.length = 8

/-- Membership in `playerSquares` in terms of the underlying pieces. -/
lemma mem_playerSquares {pieces : List Piece} {player : Int}
    {rc : Int × Int} :
    rc ∈ playerSquares pieces player ↔
      ∃ pc ∈ pieces, pc.player = player ∧ pc.captured = false ∧
        checkers_to_grid pc.position player = rc := by
  simp only [playerSquares, List.mem_map, List.mem_filter, Bool.and_eq_true,
    beq_iff_eq, Bool.not_eq_true']
  constructor
  · rintro ⟨pc, ⟨hm, hpl, hcap⟩, hgrid⟩
    exact ⟨pc, hm, hpl, hcap, hgrid⟩
  · rintro ⟨pc, hm, hpl, hcap, hgrid⟩
    exact ⟨pc, ⟨hm, hpl, hcap⟩, hgrid⟩

/-- Membership in the row-major grid scan is exactly the bounds check. -/
lemma mem_gridPairs {rc : Int × Int} :
    rc ∈ gridPairs ↔ 0 ≤ rc.1 ∧ rc.1 < 8 ∧ 0 ≤ rc.2 ∧ rc.2 < 8 := by
  rcases rc with ⟨a, b⟩
  simp [gridPairs]
  constructor
  · rintro ⟨r, hr, ⟨c, hc, hb⟩, ha⟩
    omega
  · rintro ⟨h1, h2, h3, h4⟩
    exact ⟨a.toNat, by omega, ⟨b.toNat, by omega, by omega⟩, by omega⟩

/-- Exhaustive bounds check for `checkers_to_grid` on the 32 valid
notation positions, for both players. -/
lemma checkers_to_grid_bounds_aux :
    ∀ n : Nat, n < 33 → 1 ≤ n →
      (0 ≤ (checkers_to_grid (n : Int) 1).1 ∧ (checkers_to_grid (n : Int) 1).1 < 8 ∧
        0 ≤ (checkers_to_grid (n : Int) 1).2 ∧ (checkers_to_grid (n : Int) 1).2 < 8) ∧
      (0 ≤ (checkers_to_grid (n : Int) 2).1 ∧ (checkers_to_grid (n : Int) 2).1 < 8 ∧
        0 ≤ (checkers_to_grid (n : Int) 2).2 ∧ (checkers_to_grid (n : Int) 2).2 < 8) := by
  decide

/-- On valid notation positions, `checkers_to_grid` lands inside the 8x8
grid for both players. -/
lemma checkers_to_grid_bounds (num : Int) (h1 : 1 ≤ num) (h2 : num ≤ 32)
    (player : Int) (hp : player = 1 ∨ player = 2) :
    0 ≤ (checkers_to_grid num player).1 ∧ (checkers_to_grid num player).1 < 8 ∧
      0 ≤ (checkers_to_grid num player).2 ∧ (checkers_to_grid num player).2 < 8 := by
  obtain ⟨n, rfl⟩ := Int.eq_ofNat_of_zero_le (le_trans (by norm_num) h1)
  have hn1 : 1 ≤ n := by exact_mod_cast h1
  have hn2 : n < 33 := by
    have : (n : Int) < 33 := lt_of_le_of_lt h2 (by norm_num)
    exact_mod_cast this
  rcases hp with rfl | rfl
  · exact (checkers_to_grid_bounds_aux n hn2 hn1).1
  · exact (checkers_to_grid_bounds_aux n hn2 hn1).2

/-- The empty board shows every square empty. -/
lemma bAtI_emptyBoard (r c : Int) : bAtI emptyBoard r c = false := by
  simp only [bAtI, bAt, emptyBoard, List.getD_eq_getElem?_getD]
  rw [List.getElem?_replicate]
  by_cases hr : r.toNat < 8
  · rw [if_pos hr, Option.getD_some, List.getElem?_replicate]
    by_cases hc : c.toNat < 8
    · rw [if_pos hc, Option.getD_some]
    · rw [if_neg hc]; rfl
  · rw [if_neg hr]; rfl

/-- The empty board is an 8x8 snapshot. -/
lemma isBoard8_emptyBoard : isBoard8 emptyBoard := by
  refine ⟨by simp [emptyBoard], ?_⟩
  intro row hrow
  have h : row = List.replicate 8 false := by simpa [emptyBoard] using hrow
  rw [h]
  simp

/-- Setting an in-range square preserves the 8x8 shape. -/
lemma isBoard8_setB {b : List (List Bool)} (hb : isBoard8 b) {r c : Int}
    (hr0 : 0 ≤ r) (hr8 : r < 8) : isBoard8 (setB b r c) := by
  obtain ⟨hlen, hrow⟩ := hb
  constructor
  · simp [setB, hlen]
  · intro row hmem
    rcases List.mem_or_eq_of_mem_set hmem with hm | hm
    · exact hrow row hm
    · have hlt : r.toNat < b.length := by omega
      rw [hm, List.length_set, List.getD_eq_getElem?_getD,
        List.getElem?_eq_getElem hlt]
      exact hrow _ (List.getElem_mem hlt)

/-- Reading after `setB`: the written square reads `true`, all other
in-range squares are unchanged. -/
lemma bAtI_setB {b : List (List Bool)} (hb : isBoard8 b) {r c r' c' : Int}
    (hr0 : 0 ≤ r) (hr8 : r < 8) (hc0 : 0 ≤ c) (hc8 : c < 8)
    (hr0' : 0 ≤ r') (hr8' : r' < 8) (hc0' : 0 ≤ c') (hc8' : c' < 8) :
    bAtI (setB b r c) r' c' = (decide (r = r' ∧ c = c') || bAtI b r' c') := by
  obtain ⟨hlen, hrow⟩ := hb
  have hrlt : r.toNat < b.length := by omega
  have hgetr : b[r.toNat]? = some b[r.toNat] := List.getElem?_eq_getElem hrlt
  by_cases hrr : r = r'
  · subst hrr
    have hclen : c.toNat < b[r.toNat].length := by
      have h8 : b[r.toNat].length = 8 := hrow _ (List.getElem_mem hrlt)
      omega
    by_cases hcc : c = c'
    · subst hcc
      simp only [bAtI, setB, bAt, List.getD_eq_getElem?_getD, hgetr,
        Option.getD_some, List.getElem?_set_self hrlt,
        List.getElem?_set_self hclen]
      simp
    · have hne : c.toNat ≠ c'.toNat := by omega
      simp only [bAtI, setB, bAt, List.getD_eq_getElem?_getD, hgetr,
        Option.getD_some, List.getElem?_set_self hrlt,
        List.getElem?_set_ne hne]
      simp [hcc]
  · have hne : r.toNat ≠ r'.toNat := by omega
    simp only [bAtI, setB, bAt, List.getD_eq_getElem?_getD,
      List.getElem?_set_ne hne]
    simp [hrr]

/-- Folding `setB` over a list of in-range squares marks exactly the
listed squares on top of the initial board. -/
lemma bAtI_foldl_setB (l : List (Int × Int)) :
    ∀ (b : List (List Bool)), isBoard8 b →
      (∀ rc ∈ l, 0 ≤ rc.1 ∧ rc.1 < 8 ∧ 0 ≤ rc.2 ∧ rc.2 < 8) →
      ∀ r c : Int, 0 ≤ r → r < 8 → 0 ≤ c → c < 8 →
        bAtI (l.foldl (fun b rc => setB b rc.1 rc.2) b) r c =
          (decide ((r, c) ∈ l) || bAtI b r c) := by
  induction l with
  | nil => intro b hb hl r c h0 h1 h2 h3; simp
  | cons x l ih =>
    intro b hb hl r c h0 h1 h2 h3
    have hx := hl x (List.mem_cons_self x l)
    rw [List.foldl_cons,
      ih (setB b x.1 x.2) (isBoard8_setB hb hx.1 hx.2.1)
        (fun rc h => hl rc (List.mem_cons_of_mem _ h)) r c h0 h1 h2 h3,
      bAtI_setB hb hx.1 hx.2.1 hx.2.2.1 hx.2.2.2 h0 h1 h2 h3]
    rcases x with ⟨xr, xc⟩
    by_cases h1x : (r, c) = (xr, xc)
    · rcases Prod.mk.injEq .. ▸ h1x with ⟨hr, hc⟩
      subst hr; subst hc
      simp [List.mem_cons]
    · have : ¬(xr = r ∧ xc = c) := by
        intro ⟨ha, hb'⟩; exact h1x (by simp [ha, hb'])
      simp [List.mem_cons, h1x, this]

/-- Marking a list of in-range squares yields a board occupied exactly on
those squares. -/
lemma bAtI_markSquares {l : List (Int × Int)}
    (hl : ∀ rc ∈ l, 0 ≤ rc.1 ∧ rc.1 < 8 ∧ 0 ≤ rc.2 ∧ rc.2 < 8)
    {r c : Int} (h0 : 0 ≤ r) (h1 : r < 8) (h2 : 0 ≤ c) (h3 : c < 8) :
    bAtI (markSquares l) r c = decide ((r, c) ∈ l) := by
  rw [markSquares, bAtI_foldl_setB l emptyBoard isBoard8_emptyBoard hl r c h0 h1 h2 h3,
    bAtI_emptyBoard]
  simp

/-- C6: `validate_player_board` flags exactly (i) the grid squares of
`player`'s non-captured pieces that the board shows empty and (ii) the
occupied grid squares corresponding to no non-captured piece of `player`;
consequently it is empty iff the board's occupied grid squares are exactly
the grid positions of `player`'s non-captured pieces. -/
theorem validate_board_characterisation (pieces : List Piece)
    (board : List (List Bool)) (player : Int)
    (h8 : isBoard8 board) (hp : player = 1 ∨ player = 2)
    (hpos : ∀ pc ∈ pieces, pc.player = player → pc.captured = false →
      1 ≤ pc.position ∧ pc.position ≤ 32) :
    (∀ rc : Int × Int,
      rc ∈ validate_player_board pieces board player ↔
        ((∃ pc ∈ pieces, pc.player = player ∧ pc.captured = false ∧
            checkers_to_grid pc.position player = rc ∧
            bAtI board rc.1 rc.2 = false) ∨
          (rc ∈ gridPairs ∧ bAtI board rc.1 rc.2 = true ∧
            ¬∃ pc ∈ pieces, pc.player = player ∧ pc.captured = false ∧
              checkers_to_grid pc.position player = rc))) ∧
    (validate_player_board pieces board player = [] ↔
      ∀ rc ∈ gridPairs, (bAtI board rc.1 rc.2 = true ↔
        ∃ pc ∈ pieces, pc.player = player ∧ pc.captured = false ∧
          checkers_to_grid pc.position player = rc)) := by
  have hsub : ∀ rc ∈ playerSquares pieces player, rc ∈ gridPairs := by
    intro rc hrc
    obtain ⟨pc, hm, hpl, hcap, hgrid⟩ := mem_playerSquares.mp hrc
    have hb := checkers_to_grid_bounds pc.position (hpos pc hm hpl hcap).1
      (hpos pc hm hpl hcap).2 player hp
    rw [mem_gridPairs, ← hgrid]
    exact hb
  constructor
  · intro rc
    simp only [validate_player_board, List.mem_append, List.mem_filter,
      Bool.and_eq_true, Bool.not_eq_true', decide_eq_false_iff_not]
    constructor
    · rintro (⟨hrc, hb⟩ | ⟨hg, hns, hb⟩)
      · left
        obtain ⟨pc, hmem, hpl, hcap, hgrid⟩ := mem_playerSquares.mp hrc
        exact ⟨pc, hmem, hpl, hcap, hgrid, hb⟩
      · right
        exact ⟨hg, hb, fun hex => hns (mem_playerSquares.mpr hex)⟩
    · rintro (⟨pc, hmem, hpl, hcap, hgrid, hb⟩ | ⟨hg, hb, hnex⟩)
      · left
        exact ⟨mem_playerSquares.mpr ⟨pc, hmem, hpl, hcap, hgrid⟩, hb⟩
      · right
        exact ⟨hg, fun hs => hnex (mem_playerSquares.mp hs), hb⟩
  · constructor
    · intro hnil
      simp only [validate_player_board] at hnil
      rw [List.append_eq_nil] at hnil
      obtain ⟨h1, h2⟩ := hnil
      rw [List.filter_eq_nil_iff] at h1 h2
      intro rc hg
      constructor
      · intro hb
        by_contra hnex
        have hns : rc ∉ playerSquares pieces player :=
          fun hs => hnex (mem_playerSquares.mp hs)
        exact h2 rc hg (by simp [hns, hb])
      · intro hex
        have hs := mem_playerSquares.mpr hex
        have h1' := h1 rc hs
        simpa using h1'
    · intro hiff
      simp only [validate_player_board]
      rw [List.append_eq_nil]
      constructor
      · rw [List.filter_eq_nil_iff]
        intro rc hs
        have hb : bAtI board rc.1 rc.2 = true :=
          (hiff rc (hsub rc hs)).mpr (mem_playerSquares.mp hs)
        simp [hb]
      · rw [List.filter_eq_nil_iff]
        intro rc hg hcond
        rw [Bool.and_eq_true, Bool.not_eq_true', decide_eq_false_iff_not] at hcond
        exact hcond.1 (mem_playerSquares.mpr ((hiff rc hg).mp hcond.2))

/-- A one-piece engine state used by concrete witnesses: player 1's piece
on notation square 1, not captured. -/
def onePiece : List Piece := [⟨1, 2, 1, false⟩]

/-- Witness for C6 at the concrete state `onePiece`, the empty board and
player 1. -/
theorem validate_board_characterisation_witness :
    isBoard8 emptyBoard ∧ ((1 : Int) = 1 ∨ (1 : Int) = 2) ∧
    (∀ pc ∈ onePiece, pc.player = 1 → pc.captured = false →
      1 ≤ pc.position ∧ pc.position ≤ 32) ∧
    ((∀ rc : Int × Int,
      rc ∈ validate_player_board onePiece emptyBoard 1 ↔
        ((∃ pc ∈ onePiece, pc.player = 1 ∧ pc.captured = false ∧
            checkers_to_grid pc.position 1 = rc ∧
            bAtI emptyBoard rc.1 rc.2 = false) ∨
          (rc ∈ gridPairs ∧ bAtI emptyBoard rc.1 rc.2 = true ∧
            ¬∃ pc ∈ onePiece, pc.player = 1 ∧ pc.captured = false ∧
              checkers_to_grid pc.position 1 = rc))) ∧
    (validate_player_board onePiece emptyBoard 1 = [] ↔
      ∀ rc ∈ gridPairs, (bAtI emptyBoard rc.1 rc.2 = true ↔
        ∃ pc ∈ onePiece, pc.player = 1 ∧ pc.captured = false ∧
          checkers_to_grid pc.position 1 = rc))) :=
  ⟨isBoard8_emptyBoard, Or.inl rfl, by decide,
    validate_board_characterisation onePiece emptyBoard 1
      isBoard8_emptyBoard (Or.inl rfl) (by decide)⟩

/-- Standard initial piece list of the external engine: player 1 on
notation squares 1..12, player 2 on squares 21..32, nothing captured. -/
def initialPieces : List Piece :=
  ((List.range 12).map fun i => ⟨1, 2, (i : Int) + 1, false⟩) ++
    ((List.range 12).map fun i => ⟨2, 1, (i : Int) + 21, false⟩)

/-- Engine piece list immediately after player 1's legal opening move
`9 to 13` from the initial position: a state reachable one move into a
real game, with no captures. -/
def piecesAfterOpening : List Piece :=
  initialPieces.map fun pc =>
    if pc.player = 1 ∧ pc.position = 9 then ⟨1, 2, 13, false⟩ else pc

/-- Counterexample to C2: immediately after the opening move `9 to 13`,
`validate_player_board (add_opponent_pieces (opponentOf 1)) 1` is not
empty — `add_opponent_pieces 2` renders player 1's pieces in player 2's
frame while `validate_player_board` expects them in player 1's mirrored
frame, so every piece is flagged twice. -/
theorem reconciliation_roundtrip_fails :
    validate_player_board piecesAfterOpening
      (add_opponent_pieces piecesAfterOpening 2) 1 ≠ [] := by
  decide

/-- Expected board of `player`'s own pieces rendered in `player`'s own
frame.  Modelled from the spec: the reconciliation identity needs the
expected board of the player's own non-captured pieces in the same frame
the validator uses; the source has no such helper (`add_opponent_pieces`
renders the pieces tagged `other_player == player` instead), so this
definition follows the spec's words for the comparison. -/
def expectedOwnBoard (pieces : List Piece) (player : Int) :
    List (List Bool) :=
  markSquares (playerSquares pieces player)

/-- Amended C2: validating a player's board against the expected board of
that player's own non-captured pieces, rendered in the same frame the
validator uses, always yields no mismatches. -/
theorem own_frame_reconciliation_empty (pieces : List Piece) (player : Int)
    (hp : player = 1 ∨ player = 2)
    (hpos : ∀ pc ∈ pieces, pc.player = player → pc.captured = false →
      1 ≤ pc.position ∧ pc.position ≤ 32) :
    validate_player_board pieces (expectedOwnBoard pieces player) player = [] := by
  have hl : ∀ rc ∈ playerSquares pieces player,
      0 ≤ rc.1 ∧ rc.1 < 8 ∧ 0 ≤ rc.2 ∧ rc.2 < 8 := by
    intro rc hrc
    obtain ⟨pc, hm, hpl, hcap, hgrid⟩ := mem_playerSquares.mp hrc
    have hb := checkers_to_grid_bounds pc.position (hpos pc hm hpl hcap).1
      (hpos pc hm hpl hcap).2 player hp
    rw [← hgrid]
    exact hb
  simp only [validate_player_board, expectedOwnBoard]
  rw [List.append_eq_nil]
  constructor
  · rw [List.filter_eq_nil_iff]
    intro rc hs
    have hb := hl rc hs
    rw [bAtI_markSquares hl hb.1 hb.2.1 hb.2.2.1 hb.2.2.2]
    simp [hs]
  · rw [List.filter_eq_nil_iff]
    intro rc hg
    have hb := mem_gridPairs.mp hg
    rw [bAtI_markSquares hl hb.1 hb.2.1 hb.2.2.1 hb.2.2.2]
    by_cases hs : rc ∈ playerSquares pieces player <;> simp [hs]

/-- Witness for the amended C2 at the reachable state one move into the
game, for player 1. -/
theorem own_frame_reconciliation_empty_witness :
    ((1 : Int) = 1 ∨ (1 : Int) = 2) ∧
    (∀ pc ∈ piecesAfterOpening, pc.player = 1 → pc.captured = false →
      1 ≤ pc.position ∧ pc.position ≤ 32) ∧
    validate_player_board piecesAfterOpening
      (expectedOwnBoard piecesAfterOpening 1) 1 = [] :=
  ⟨Or.inl rfl, by decide,
    own_frame_reconciliation_empty piecesAfterOpening 1 (Or.inl rfl) (by decide)⟩

/-! ### Read-only reconciliation (frame effect) -/

/-- State of the external rule engine as read through `self.game`: the
board's piece list and the turn owner. -/
structure GameState where
  pieces : List Piece
  player_turn : Int
deriving DecidableEq

/-- Method form of `add_opponent_pieces`: the body only reads
`self.game.board.pieces` (building a fresh local `opponent_board`), so the
translation threads the engine state through unchanged. -/
def add_opponent_pieces_st (g : GameState) (player : Int) :
    List (List Bool) × GameState :=
  (add_opponent_pieces g.pieces player, g)

/-- Method form of `validate_player_board`: the body only reads
`self.game.board.pieces` (its `seen` and `invalid_positions` are locals),
so the translation threads the engine state through unchanged. -/
def validate_player_board_st (g : GameState) (board : List (List Bool))
    (player : Int) : List (Int × Int) × GameState :=
  (validate_player_board g.pieces board player, g)

/-- C10: `add_opponent_pieces` and `validate_player_board` are read-only
with respect to the rule engine: the engine state (piece list with
positions and captured flags, and the turn owner) after either call is
identical to the state before it. -/
theorem reconciler_read_only (g : GameState) (board : List (List Bool))
    (player : Int) :
    (add_opponent_pieces_st g player).2 = g ∧
      (validate_player_board_st g board player).2 = g :=
  ⟨rfl, rfl⟩

/-! ### Session registry and join semantics -/

/-- A session: one engine game plus the connected-party counter
(`instance_count`). -/
structure Session where
  game : GameState
  instance_count : Int
deriving DecidableEq

/-- Fresh game supplied by the external engine's constructor `Game()`:
the standard initial position with player 1 to move. -/
def initialGame : GameState := ⟨initialPieces, 1⟩

/-- The session `__init__` builds: a fresh game and a zero party count. -/
def newSession : Session := ⟨initialGame, 0⟩

/-- The class-level `instances` dictionary, keyed by room-group name. -/
abbrev Registry := List (String × Session)

/-- Model of `get_instance`: create-if-absent, then return the session
stored under the key (the registry is returned alongside, since creation
mutates the class-level dictionary). -/
def get_instance (reg : Registry) (k : String) : Session × Registry :=
  match reg.lookup k with
  | some s => (s, reg)
  | none => (newSession, (k, newSession) :: reg)

/-- Model of `remove_instance`: delete the key's entry if present. -/
def remove_instance (reg : Registry) (k : String) : Registry :=
  reg.filter fun kv => !(kv.1 == k)

/-- In-place mutation of the session object shared between the dictionary
and the consumer: replace the value stored under `k`. -/
def updateSession (reg : Registry) (k : String) (s : Session) : Registry :=
  reg.map fun kv => if kv.1 == k then (k, s) else kv

/-- Model of `ChatConsumer.disconnect` for a consumer attached to the
session stored under `k`: decrement the party counter and, when it
reaches zero or below, remove the session from the registry. -/
def disconnect (reg : Registry) (k : String) : Registry :=
  match reg.lookup k with
  | none => reg
  | some s =>
    if s.instance_count - 1 ≤ 0 then remove_instance reg k
    else updateSession reg k ⟨s.game, s.instance_count - 1⟩

/-- Model of `ChatConsumer.connect`: resolve or create the session,
increment its party counter, and assign the consumer's player slot from
the incremented counter (`1` or `2`, else the unassigned sentinel `-1`). -/
def connect (reg : Registry) (k : String) : Int × Registry :=
  let sr := get_instance reg k
  let s2 : Session := ⟨sr.1.game, sr.1.instance_count + 1⟩
  let pnum : Int :=
    if s2.instance_count = 1 ∨ s2.instance_count = 2 then s2.instance_count
    else -1
  (pnum, updateSession sr.2 k s2)

/-- Removing a key leaves no entry for it in the registry. -/
lemma lookup_remove_instance (reg : Registry) (k : String) :
    (remove_instance reg k).lookup k = none := by
  induction reg with
  | nil => rfl
  | cons kv t ih =>
    rcases kv with ⟨a, b⟩
    by_cases h : a = k
    · subst h
      simpa [remove_instance, List.filter_cons] using ih
    · have hne : (a == k) = false := by simp [h]
      have hne2 : (k == a) = false := by simp [Ne.symm h]
      simp only [remove_instance, List.filter_cons, hne, Bool.not_false, if_pos]
      rw [List.lookup_cons, hne2]
      simpa [remove_instance] using ih

/-- C7: `get_instance` is create-if-absent — a second call with the same
key returns the very session the first call returned, with no registry
change; and once `disconnect` drops the party count to zero or below the
session is removed, so the next `get_instance` returns a brand-new
session with a fresh game and a zero count. -/
theorem session_lifecycle (reg : Registry) (k : String) :
    get_instance (get_instance reg k).2 k =
      ((get_instance reg k).1, (get_instance reg k).2) ∧
    (∀ s : Session, reg.lookup k = some s → s.instance_count - 1 ≤ 0 →
      (disconnect reg k).lookup k = none ∧
      (get_instance (disconnect reg k) k).1 = newSession ∧
      newSession.instance_count = 0 ∧ newSession.game = initialGame) := by
  constructor
  · rcases h : reg.lookup k with _ | s
    · simp [get_instance, h, List.lookup_cons]
    · simp [get_instance, h]
  · intro s hs hle
    have hd : disconnect reg k = remove_instance reg k := by
      simp [disconnect, hs, hle]
    refine ⟨?_, ?_, rfl, rfl⟩
    · rw [hd]
      exact lookup_remove_instance reg k
    · rw [hd]
      simp [get_instance, lookup_remove_instance reg k]

/-- Registry used by the C7 witness: one session with one party. -/
def regSeven : Registry := [("room", ⟨initialGame, 1⟩)]

/-- Witness for C7: one connected party disconnects; the session is gone
and the next `get_instance` yields the fresh session. -/
theorem session_lifecycle_witness :
    regSeven.lookup "room" = some ⟨initialGame, 1⟩ ∧
    ((1 : Int) - 1 ≤ 0) ∧
    ((disconnect regSeven "room").lookup "room" = none ∧
      (get_instance (disconnect regSeven "room") "room").1 = newSession ∧
      newSession.instance_count = 0 ∧ newSession.game = initialGame) :=
  ⟨rfl, by norm_num,
    (session_lifecycle regSeven "room").2 ⟨initialGame, 1⟩ rfl (by norm_num)⟩

/-- Counterexample to C8: on a fresh key, two parties join (slots 1 and
2), one leaves, and a third party joins — the third joiner receives
player slot 2, not the unassigned sentinel, because slots are assigned
from the current party count. -/
theorem third_join_gets_slot_two :
    (connect (disconnect (connect (connect [] "room").2 "room").2 "room") "room").1 = 2 := by
  rfl

/-- Amended C8: the player slot handed to a joiner is determined by the
session's current party count, not by historical join order: a join that
raises the count to 1 or 2 receives that slot, and a join while two or
more parties are counted receives the unassigned sentinel `-1`.  With no
interleaved leaves the 1st and 2nd joiners therefore get slots 1 and 2
and later joiners get `-1`, but after a leave a later joiner can reoccupy
slot 1 or 2. -/
theorem slot_assigned_by_current_count (reg : Registry) (k : String) :
    (reg.lookup k = none → (connect reg k).1 = 1) ∧
    (∀ s : Session, reg.lookup k = some s →
      ((s.instance_count = 0 → (connect reg k).1 = 1) ∧
        (s.instance_count = 1 → (connect reg k).1 = 2) ∧
        (2 ≤ s.instance_count → (connect reg k).1 = -1))) := by
  constructor
  · intro h
    simp [connect, get_instance, h, newSession]
  · intro s hs
    refine ⟨?_, ?_, ?_⟩ <;> intro hc <;>
      simp [connect, get_instance, hs, hc]
    · intro h1
      omega

/-- Registry used by the C8 witness: one session with two parties. -/
def regEight : Registry := [("room", ⟨initialGame, 2⟩)]

/-- Witness for the amended C8: with two parties counted, the next joiner
receives the unassigned sentinel. -/
theorem slot_assigned_by_current_count_witness :
    regEight.lookup "room" = some ⟨initialGame, 2⟩ ∧ (2 : Int) ≤ 2 ∧
      (connect regEight "room").1 = -1 :=
  ⟨rfl, by norm_num,
    ((slot_assigned_by_current_count regEight "room").2 ⟨initialGame, 2⟩ rfl).2.2
      (by norm_num)⟩

end CheckersWrapper
